import Mathlib

/-!
Verification development for the restaurant recommendation pipeline
(`Recommend_v1.py`, `recommend/recommendation_v1.py`, `flow/flow_recommend.py`).

The pipeline aggregates tag rows into per-entity characteristic text
(pandas `groupby` + join), fits a TF-IDF vectorizer over the combined
corpus, computes a cosine-similarity matrix, selects the top-K
restaurants per user with `np.argpartition` / `np.argsort`, and commits
the result with a delete-then-insert write against PostgreSQL.

The embedding below models each stage from the source:
pure data transformations become Lean functions on lists, the database
write becomes an explicit state transition with the two commit points of
`write_DB`, and the unspecified tie behaviour of numpy's unstable
partial selection is an explicit parameter constrained by the predicate
`validTopK`.
-/

namespace RecSys

/-- A stored recommendation row `(user_id, restaurant_id, score)`,
as inserted by `INSERT INTO ... (user_id, restaurant_id, score)`. -/
structure Rec where
  user : Nat
  restaurant : Nat
  score : ℚ
deriving DecidableEq

/-- Distinct elements of a list in order of first appearance, skipping
elements already in `seen`.  Models `pandas.Series.unique`, which keeps
the first occurrence of each value. -/
def distinctFirst {α : Type} [DecidableEq α] (seen : List α) : List α → List α
  | [] => []
  | a :: l => if a ∈ seen then distinctFirst seen l else a :: distinctFirst (a :: seen) l

/-- `df_recommendations["user_id"].unique()`: the distinct user ids of the
replace-set, in first-appearance order (`Recommend_v1.py` line 168,
`recommendation_v1.py` line 177). -/
def touched (recs : List Rec) : List Nat :=
  distinctFirst [] (recs.map (·.user))

/-- `DELETE FROM <table> WHERE user_id = ANY(uids)`: keeps exactly the rows
whose user id is not in `uids`. -/
def deleteFor (uids : List Nat) (rows : List Rec) : List Rec :=
  rows.filter (fun r => r.user ∉ uids)

/-- Where the replace-write stops.  `write_DB` runs
DELETE; `con.commit()`; INSERT; `con.commit()` and rolls back on error, so
the observable outcomes are: failure before the first commit (rollback
restores everything), failure after the first commit but before the second
(the delete is already durable, the insert is rolled back), and success. -/
inductive WriteOutcome
  | failBeforeFirstCommit
  | failBeforeSecondCommit
  | success
deriving DecidableEq

/-- Committed table contents after `write_DB` (recommendation_v1.py lines
175-202; same delete/commit/insert/commit structure at `Recommend_v1.py`
lines 166-183) stops at the given outcome. -/
def writeDB (rows : List Rec) (recs : List Rec) : WriteOutcome → List Rec
  | .failBeforeFirstCommit => rows
  | .failBeforeSecondCommit => deleteFor (touched recs) rows
  | .success => deleteFor (touched recs) rows ++ recs

/-- The two tables named by `recommendation_v1.py`:  `write_DB` targets
`recommendations` while `create_view` reads `recommendation`. -/
structure DBState where
  recommendations : List Rec
  recommendation : List Rec
deriving DecidableEq

/-- Table named in `DELETE FROM recommendations` / `INSERT INTO
recommendations` (recommendation_v1.py lines 180 and 188). -/
def writeTargetTable : String := "recommendations"

/-- Table named in `FROM recommendation r` inside `CREATE OR REPLACE VIEW
recommendation_view` (recommendation_v1.py line 215). -/
def viewSourceTable : String := "recommendation"

/-- Read a table of the modelled database by name. -/
def getTable (st : DBState) (name : String) : List Rec :=
  if name = "recommendations" then st.recommendations
  else if name = "recommendation" then st.recommendation
  else []

/-- Replace the contents of a table of the modelled database by name. -/
def setTable (st : DBState) (name : String) (rows : List Rec) : DBState :=
  if name = "recommendations" then { st with recommendations := rows }
  else if name = "recommendation" then { st with recommendation := rows }
  else st

/-- Successful run of `write_DB` from `recommendation_v1.py`: delete-then-insert
against the table named `writeTargetTable`. -/
def writeDBTables (st : DBState) (recs : List Rec) : DBState :=
  setTable st writeTargetTable
    (deleteFor (touched recs) (getTable st writeTargetTable) ++ recs)

/-- Rows visible through `recommendation_view`, which `create_view` defines
over the table named `viewSourceTable`. -/
def recommendationView (st : DBState) : List Rec :=
  getTable st viewSourceTable

/-- One tag-association row, as produced by the SQL joins: the entity id
(`restaurant_id` or `user_id`) together with one `tag_name`. -/
structure TagRow where
  entityId : Nat
  tagName : String
deriving DecidableEq

/-- Entity-id column of the tag rows. -/
def keysOf (rows : List TagRow) : List Nat := rows.map (·.entityId)

/-- Tag names of one entity, in input row order (pandas groupby preserves
the original order inside each group). -/
def tagsOf (e : Nat) (rows : List TagRow) : List String :=
  (rows.filter (fun r => r.entityId = e)).map (·.tagName)

/-- Group keys produced by `df.groupby("...")`: pandas sorts the distinct
keys ascending (default `sort=True`). -/
def groupKeys (rows : List TagRow) : List Nat :=
  List.insertionSort (· ≤ ·) (distinctFirst [] (keysOf rows))

/-- The profile aggregation `df.groupby(id)["tag_name"].apply(delim.join)`
(`preprocess_data`, recommendation_v1.py lines 101-113; `Recommend_v1.py`
lines 106-114): one `(entity_id, characteristic_text)` pair per distinct
entity id, keys in pandas groupby order. -/
def aggregateProfiles (delim : String) (rows : List TagRow) : List (Nat × String) :=
  (groupKeys rows).map (fun e => (e, String.intercalate delim (tagsOf e rows)))

/-- Modelled from the spec: the same aggregation but with the group order
the specification asserts, namely first appearance of each entity id in
the input sequence.  Used only to compare the code's order against the
claimed order. -/
def aggregateProfilesSpec (delim : String) (rows : List TagRow) : List (Nat × String) :=
  (distinctFirst [] (keysOf rows)).map (fun e => (e, String.intercalate delim (tagsOf e rows)))

/-- Word characters of sklearn's default `token_pattern` `\w\w+`. -/
def isWordChar (c : Char) : Bool := c.isAlphanum || c = '_'

/-- Maximal runs of word characters, keeping only runs of length at least
two; `cur` holds the characters of the current run in reverse. -/
def tokenRuns (cur : List Char) : List Char → List String
  | [] => if 2 ≤ cur.length then [String.mk cur.reverse] else []
  | c :: cs =>
    if isWordChar c then tokenRuns (c :: cur) cs
    else (if 2 ≤ cur.length then [String.mk cur.reverse] else []) ++ tokenRuns [] cs

/-- sklearn `TfidfVectorizer` default analyzer: lowercase the text and take
the maximal `\w`-runs of length at least two as tokens. -/
def tokenize (s : String) : List String := tokenRuns [] (s.toList.map Char.toLower)

/-- Fitted vocabulary: the distinct tokens of the corpus, sorted (sklearn
sorts vocabulary terms alphabetically). -/
def buildVocab (docs : List String) : List String :=
  List.insertionSort (fun a b => a ≤ b) (distinctFirst [] (docs.map tokenize).flatten)

/-- Error raised by `CountVectorizer._count_vocab` when fitting finds no
vocabulary term. -/
def emptyVocabMsg : String := "empty vocabulary; perhaps the documents only contain stop words"

/-- `TfidfVectorizer().fit(corpus)`: succeeds with the fitted vocabulary,
or raises the empty-vocabulary error when no term survives tokenization. -/
def fitVectorizer (docs : List String) : Except String (List String) :=
  let v := buildVocab docs
  if v.isEmpty then .error emptyVocabMsg else .ok v

/-- Score of the restaurant at column `i` of a similarity-matrix row. -/
def scoreAt (scores : List ℚ) (i : Nat) : ℚ := scores.getD i 0

/-- Outcomes of `np.argpartition(-row, k)[:k]` followed by
`np.argsort(-row[top_k_idx])`: `sel` is any arrangement of column indices
such that exactly `k` distinct in-range indices are chosen, their scores
are weakly descending along `sel` (pairwise, via transitivity), and every unchosen column scores no
higher than every chosen one.  numpy guarantees nothing more: the choice
among tied scores at the boundary and the order among equal scores are
unspecified (introselect / quicksort are unstable). -/
def validTopK (scores : List ℚ) (k : Nat) (sel : List Nat) : Prop :=
  sel.length = k ∧ sel.Nodup ∧ (∀ i ∈ sel, i < scores.length) ∧
  List.Pairwise (fun i j => scoreAt scores j ≤ scoreAt scores i) sel ∧
  ∀ j < scores.length, j ∉ sel → ∀ i ∈ sel, scoreAt scores j ≤ scoreAt scores i

instance (scores : List ℚ) (k : Nat) (sel : List Nat) :
    Decidable (validTopK scores k sel) :=
  inferInstanceAs (Decidable (_ ∧ _ ∧ _ ∧ _ ∧ _))

/-- `np.argpartition(-row, k)` raises `ValueError: kth(=k) out of bounds`
unless `k < len(row)`; otherwise the selected index order is produced by
numpy's fixed but unspecified algorithm, modelled by the parameter `alg`. -/
def argpartitionTopK (alg : List ℚ → Nat → List Nat) (scores : List ℚ) (k : Nat) :
    Except String (List Nat) :=
  if k < scores.length then .ok (alg scores k) else .error "kth out of bounds"

/-- Body of the recommendation loop: the appended triples
`(int(user_id), int(restaurant_id at column i), float(score at column i))`
for the selected columns. -/
def triplesFor (uid : Nat) (rids : List Nat) (scores : List ℚ) (sel : List Nat) : List Rec :=
  sel.map (fun i => Rec.mk uid (rids.getD i 0) (scoreAt scores i))

/-- The per-user loop of `Recommend_v1.py` lines 146-156 over pairs of a
user id and that user's similarity row. -/
def recsForUsersAux (alg : List ℚ → Nat → List Nat) (rids : List Nat) (k : Nat) :
    List (Nat × List ℚ) → Except String (List Rec)
  | [] => .ok []
  | (uid, row) :: rest =>
    match argpartitionTopK alg row k with
    | .error e => .error e
    | .ok sel =>
      match recsForUsersAux alg rids k rest with
      | .error e => .error e
      | .ok tail => .ok (triplesFor uid rids row sel ++ tail)

/-- Top-K selection over all users: for each user row of the similarity
matrix, select the k columns and emit ranked triples; the first
out-of-bounds `argpartition` aborts the run. -/
def recsForUsers (alg : List ℚ → Nat → List Nat) (uids : List Nat) (rids : List Nat)
    (sim : List (List ℚ)) (k : Nat) : Except String (List Rec) :=
  recsForUsersAux alg rids k (uids.zip sim)

/-- Names bound at module level of `recommend/recommendation_v1.py`: its
imports and its seven function definitions.  The module never binds `k`. -/
def moduleLevelNames : List String :=
  ["load_dotenv", "os", "join", "dirname", "psycopg2", "execute_values", "pd", "np",
   "TfidfVectorizer", "cosine_similarity", "load_env_variables", "connect_db",
   "fetch_datas", "preprocess_data", "compute_similarity", "write_DB", "create_view"]

/-- Python resolution of the free name `k` inside `compute_similarity`:
a global lookup in the module namespace, which yields a value only if the
module binds `k` (it does not, so the lookup fails with NameError). -/
def kGlobal : Option Nat :=
  if moduleLevelNames.contains "k" then some 0 else none

/-- The error Python raises for the unresolved name `k`. -/
def nameErrorK : String := "NameError: name k is not defined"

/-- `compute_similarity` from `recommendation_v1.py` lines 124-164: fit the
vectorizer on the combined corpus (which can raise the empty-vocabulary
error), then run the per-user top-K loop, whose first iteration evaluates
the free name `k`.  The float similarity matrix is abstracted as `sim`;
its values are irrelevant to the control flow modelled here. -/
def computeSimilarity (alg : List ℚ → Nat → List Nat) (sim : List (List ℚ))
    (restaurantProfiles userProfiles : List (Nat × String)) :
    Except String (List Rec) :=
  match fitVectorizer (userProfiles.map Prod.snd ++ restaurantProfiles.map Prod.snd) with
  | .error e => .error e
  | .ok _vocab =>
    match kGlobal with
    | some k =>
        recsForUsers alg (userProfiles.map Prod.fst) (restaurantProfiles.map Prod.fst) sim k
    | none => if userProfiles.isEmpty then .ok [] else .error nameErrorK

/-- Dot product of two vectors given as lists (pairwise products summed;
excess coordinates of the longer list are ignored, as both vectors of the
code have the vocabulary length). -/
def listDot (u v : List ℝ) : ℝ := (List.zipWith (· * ·) u v).sum

/-- `sklearn.metrics.pairwise.cosine_similarity` on one pair of rows:
normalize each vector and take the dot product, with the convention that
an all-zero vector keeps norm-divisor behaviour of zero (similarity 0,
matching sklearn's handling of zero rows and Lean's division by zero). -/
noncomputable def cosineSim (u v : List ℝ) : ℝ :=
  listDot u v / (Real.sqrt (listDot u u) * Real.sqrt (listDot v v))

/-- Occurrences of vocabulary term `t` in a document (raw term frequency,
sklearn default `sublinear_tf=False`). -/
def termCount (doc : String) (t : String) : Nat := (tokenize doc).count t

/-- Number of corpus documents containing term `t`. -/
def docFreq (docs : List String) (t : String) : Nat :=
  docs.countP (fun d => (tokenize d).contains t)

/-- sklearn smoothed inverse document frequency
`ln((1 + n) / (1 + df)) + 1` (defaults `smooth_idf=True`). -/
noncomputable def idfWeight (n df : Nat) : ℝ :=
  Real.log ((1 + (n : ℝ)) / (1 + (df : ℝ))) + 1

/-- Unnormalized TF-IDF vector of a document over the vocabulary fitted on
`docs`.  The code's vectors carry an extra L2 normalization, which cosine
similarity is invariant under, so it is folded into `cosineSim`. -/
noncomputable def tfidfVec (docs : List String) (doc : String) : List ℝ :=
  (buildVocab docs).map fun t =>
    (termCount doc t : ℝ) * idfWeight docs.length (docFreq docs t)

/-- Concrete prior table contents used to exhibit the lost-update behaviour
of the replace-write. -/
def priorRows : List Rec := [⟨1, 10, 1⟩, ⟨2, 30, 2⟩]

/-- Concrete replace-set touching user 1 only. -/
def newRecs : List Rec := [⟨1, 20, 3⟩]

/-- Similarity row with a three-way tie at the selection boundary:
with k = 5, columns 0-3 are forced and the fifth slot is any one of the
tied columns 4, 5, 6. -/
def tieScores : List ℚ := [9, 8, 7, 6, 5, 5, 5]

/-- Restaurant ids for the seven columns of `tieScores`. -/
def tieRids : List Nat := [10, 11, 12, 13, 14, 15, 16]

theorem mem_distinctFirst {α : Type} [DecidableEq α] (a : α) (l : List α) :
    ∀ seen, a ∈ distinctFirst seen l ↔ a ∈ l ∧ a ∉ seen := by
  induction l with
  | nil => intro seen; simp [distinctFirst]
  | cons b t ih =>
    intro seen
    by_cases hb : b ∈ seen
    · rw [distinctFirst, if_pos hb, ih seen]
      constructor
      · rintro ⟨h1, h2⟩; exact ⟨List.mem_cons_of_mem _ h1, h2⟩
      · rintro ⟨h1, h2⟩
        rcases List.mem_cons.1 h1 with rfl | h1
        · exact absurd hb h2
        · exact ⟨h1, h2⟩
    · rw [distinctFirst, if_neg hb]
      simp only [List.mem_cons, ih (b :: seen)]
      by_cases hab : a = b
      · subst hab; simp [hb]
      · simp [hab]

theorem nodup_distinctFirst {α : Type} [DecidableEq α] (l : List α) :
    ∀ seen, (distinctFirst seen l).Nodup := by
  induction l with
  | nil => intro seen; simp [distinctFirst]
  | cons b t ih =>
    intro seen
    by_cases hb : b ∈ seen
    · rw [distinctFirst, if_pos hb]; exact ih seen
    · rw [distinctFirst, if_neg hb]
      refine List.nodup_cons.2 ⟨fun hc => ?_, ih (b :: seen)⟩
      exact ((mem_distinctFirst b t (b :: seen)).1 hc).2 (List.mem_cons_self b seen)

theorem distinctFirst_nil_iff {α : Type} [DecidableEq α] (l : List α) :
    distinctFirst ([] : List α) l = [] ↔ l = [] := by
  cases l with
  | nil => simp [distinctFirst]
  | cons b t => simp [distinctFirst]

/-- C1: the replace-write is not atomic.  `write_DB` commits the DELETE
before running the INSERT (`con.commit()` at recommendation_v1.py line 183,
`connection.commit()` at Recommend_v1.py line 172), so a failure during
the insert rolls back only the insert: the prior recommendation of user 1
is destroyed and nothing replaces it, contradicting the claim that a
failure between delete and insert leaves prior recommendations intact. -/
theorem writeDB_not_atomic :
    writeDB priorRows newRecs .failBeforeSecondCommit = [⟨2, 30, 2⟩] ∧
    (writeDB priorRows newRecs .failBeforeSecondCommit).filter (fun r => r.user = 1) = [] ∧
    priorRows.filter (fun r => r.user = 1) ≠ [] := by decide

/-- C10: `write_DB` targets the table `recommendations` while
`create_view` defines `recommendation_view` over the table
`recommendation`; the two names differ, a run of the write never changes
the view's source table, and every written row lands in the other table. -/
theorem writeDB_misses_view_table :
    writeTargetTable ≠ viewSourceTable ∧
    ∀ (st : DBState) (recs : List Rec),
      recommendationView (writeDBTables st recs) = recommendationView st ∧
      getTable (writeDBTables st recs) writeTargetTable
        = deleteFor (touched recs) st.recommendations ++ recs := by
  refine ⟨by decide, fun st recs => ⟨?_, ?_⟩⟩
  · simp [recommendationView, writeDBTables, getTable, setTable,
      writeTargetTable, viewSourceTable]
  · simp [writeDBTables, getTable, setTable, writeTargetTable]

theorem buildVocab_eq_nil_iff (docs : List String) :
    buildVocab docs = [] ↔ (docs.map tokenize).flatten = [] := by
  rw [buildVocab]
  have h1 : (List.insertionSort (fun a b => a ≤ b)
      (distinctFirst [] (docs.map tokenize).flatten)).length
      = (distinctFirst [] (docs.map tokenize).flatten).length :=
    (List.perm_insertionSort _ _).length_eq
  rw [← List.length_eq_zero, h1, List.length_eq_zero, distinctFirst_nil_iff]

/-- C6 counterexample: a corpus that is a single repeated term does not
fail; fitting succeeds with the one-term vocabulary, refuting the claim
that such a corpus produces an explicit insufficient-vocabulary error. -/
theorem fit_succeeds_on_repeated_term :
    fitVectorizer ["vegan", "vegan"] = .ok ["vegan"] := by rfl

/-- C6 (amended): fitting fails with the empty-vocabulary error exactly
when tokenization of the whole corpus yields no term at all — in
particular on the empty corpus — while any corpus with at least one
surviving token (such as one repeated term) succeeds. -/
theorem fitVectorizer_error_iff_no_tokens :
    (∀ docs : List String,
        fitVectorizer docs = .error emptyVocabMsg ↔ (docs.map tokenize).flatten = []) ∧
    fitVectorizer [] = .error emptyVocabMsg := by
  refine ⟨fun docs => ?_, by rfl⟩
  constructor
  · intro he
    by_contra hne
    have h : buildVocab docs ≠ [] := fun hc => hne ((buildVocab_eq_nil_iff docs).1 hc)
    rw [fitVectorizer] at he
    simp [List.isEmpty_iff, h] at he
  · intro hnil
    have h : buildVocab docs = [] := (buildVocab_eq_nil_iff docs).2 hnil
    rw [fitVectorizer]
    simp [h]

theorem mem_groupKeys (e : Nat) (rows : List TagRow) :
    e ∈ groupKeys rows ↔ e ∈ keysOf rows := by
  rw [groupKeys, List.mem_insertionSort, mem_distinctFirst]
  simp

theorem nodup_groupKeys (rows : List TagRow) : (groupKeys rows).Nodup :=
  ((List.perm_insertionSort _ _).nodup_iff).2 (nodup_distinctFirst _ _)

/-- C5 counterexample: on the input rows `[(2, "a"), (1, "b")]` the code's
aggregation returns the profiles in ascending entity-id order `[1, 2]`
(pandas groupby sorts group keys), not in first-appearance order `[2, 1]`
as the claim asserts. -/
theorem aggregate_order_not_first_appearance :
    aggregateProfiles " | " [⟨2, "a"⟩, ⟨1, "b"⟩] = [(1, "b"), (2, "a")] ∧
    aggregateProfilesSpec " | " [⟨2, "a"⟩, ⟨1, "b"⟩] = [(2, "a"), (1, "b")] ∧
    aggregateProfiles " | " [⟨2, "a"⟩, ⟨1, "b"⟩]
      ≠ aggregateProfilesSpec " | " [⟨2, "a"⟩, ⟨1, "b"⟩] := by decide

/-- C5 (amended): the aggregation produces exactly one profile per
distinct entity id occurring in the input (an entity with zero rows gets
no profile), deterministically, but the profile order is ascending by
entity id — pandas groupby's sorted key order — not the order of first
appearance in the input. -/
theorem aggregateProfiles_one_per_entity_sorted (delim : String) (rows : List TagRow) :
    (aggregateProfiles delim rows).map Prod.fst = groupKeys rows ∧
    ((aggregateProfiles delim rows).map Prod.fst).Nodup ∧
    (∀ e : Nat, e ∈ (aggregateProfiles delim rows).map Prod.fst ↔ e ∈ keysOf rows) ∧
    List.Sorted (· ≤ ·) ((aggregateProfiles delim rows).map Prod.fst) := by
  have hmap : (aggregateProfiles delim rows).map Prod.fst = groupKeys rows := by
    rw [aggregateProfiles]
    induction groupKeys rows with
    | nil => rfl
    | cons a t ih => simp only [List.map_cons] at ih ⊢; rw [ih]
  refine ⟨hmap, ?_, ?_, ?_⟩
  · rw [hmap]; exact nodup_groupKeys rows
  · intro e; rw [hmap]; exact mem_groupKeys e rows
  · rw [hmap]; exact List.sorted_insertionSort _ _

theorem user_mem_touched {r : Rec} {recs : List Rec} (hr : r ∈ recs) :
    r.user ∈ touched recs := by
  rw [touched]
  exact (mem_distinctFirst r.user (recs.map (·.user)) []).2
    ⟨List.mem_map_of_mem _ hr, List.not_mem_nil _⟩

theorem deleteFor_append (uids : List Nat) (a b : List Rec) :
    deleteFor uids (a ++ b) = deleteFor uids a ++ deleteFor uids b := by
  rw [deleteFor, deleteFor, deleteFor, List.filter_append]

theorem deleteFor_touched_self (recs : List Rec) :
    deleteFor (touched recs) recs = [] := by
  rw [deleteFor]
  refine List.filter_eq_nil_iff.2 fun r hr => ?_
  simp only [decide_eq_true_eq, Decidable.not_not]
  exact user_mem_touched hr

theorem deleteFor_idem (uids : List Nat) (rows : List Rec) :
    deleteFor uids (deleteFor uids rows) = deleteFor uids rows := by
  rw [deleteFor, deleteFor, List.filter_filter]
  exact List.filter_congr fun r _ => Bool.and_self _

/-- C9: the replace-write touches only the user ids of the replace-set.
For every outcome — rollback before the first commit, failure between the
two commits, or success — the stored rows of any user not in the touched
set are exactly what they were before the call. -/
theorem replace_write_isolated (rows recs : List Rec) (o : WriteOutcome) (u : Nat)
    (hu : u ∉ touched recs) :
    (writeDB rows recs o).filter (fun r => r.user = u)
      = rows.filter (fun r => r.user = u) := by
  have hdel : (deleteFor (touched recs) rows).filter (fun r => r.user = u)
      = rows.filter (fun r => r.user = u) := by
    rw [deleteFor, List.filter_filter]
    refine List.filter_congr fun r _ => ?_
    by_cases h : r.user = u
    · simp [h, hu]
    · simp [h]
  cases o with
  | failBeforeFirstCommit => rfl
  | failBeforeSecondCommit => exact hdel
  | success =>
    have hnil : recs.filter (fun r => r.user = u) = [] := by
      refine List.filter_eq_nil_iff.2 fun r hr => ?_
      simp only [decide_eq_true_eq]
      intro hru
      exact hu (hru ▸ user_mem_touched hr)
    show (deleteFor (touched recs) rows ++ recs).filter (fun r => r.user = u) = _
    rw [List.filter_append, hdel, hnil, List.append_nil]

/-- Witness: user 2 is not in the replace-set `newRecs`, and its stored
rows survive a successful replace unchanged. -/
theorem replace_write_isolated_witness :
    (2 ∉ touched newRecs) ∧
    (writeDB priorRows newRecs .success).filter (fun r => r.user = 2)
      = priorRows.filter (fun r => r.user = 2) :=
  ⟨by decide, replace_write_isolated priorRows newRecs .success 2 (by decide)⟩

/-- C3: when a user has at most K restaurants available (K = 5), the
selection does not return all of them ranked — `np.argpartition(-row, 5)`
raises its kth-out-of-bounds error, so the whole run aborts.  Only with
strictly more than K restaurants does the loop produce output. -/
theorem topK_raises_when_restaurants_le_K (alg : List ℚ → Nat → List Nat)
    (u : Nat) (uids : List Nat) (row : List ℚ) (sim : List (List ℚ)) (rids : List Nat)
    (h : row.length ≤ 5) :
    recsForUsers alg (u :: uids) rids (row :: sim) 5 = .error "kth out of bounds" := by
  rw [recsForUsers, List.zip_cons_cons, recsForUsersAux, argpartitionTopK,
    if_neg (Nat.not_lt.2 h)]

/-- Witness: the specification's own scenario — two users, three
restaurants — aborts with the argpartition bounds error. -/
theorem topK_raises_witness :
    ([(1 : ℚ), 0, 0].length ≤ 5) ∧
    recsForUsers (fun _ _ => []) [1, 2] [10, 20, 30] [[1, 0, 0], [0, 1, 0]] 5
      = .error "kth out of bounds" :=
  ⟨by decide,
    topK_raises_when_restaurants_le_K (fun _ _ => []) 1 [2] [1, 0, 0] [[0, 1, 0]]
      [10, 20, 30] (by decide)⟩

/-- C2: for every pair of profile sets with at least one user profile,
`compute_similarity` of recommendation_v1.py never returns a
recommendations value: the free name `k` at its top-K selection resolves
against the module globals, which never bind `k`, so the call raises —
NameError whenever the vectorizer fit itself did not already fail. -/
theorem computeSimilarity_always_raises (alg : List ℚ → Nat → List Nat)
    (sim : List (List ℚ)) (rp up : List (Nat × String)) (h : up ≠ []) :
    (∃ e, computeSimilarity alg sim rp up = .error e) ∧
    (buildVocab (up.map Prod.snd ++ rp.map Prod.snd) ≠ [] →
      computeSimilarity alg sim rp up = .error nameErrorK) := by
  have hk : kGlobal = none := by rfl
  have hne : up.isEmpty = false := by
    cases up with
    | nil => exact absurd rfl h
    | cons a t => rfl
  have hmain : ∀ hv : buildVocab (up.map Prod.snd ++ rp.map Prod.snd) ≠ [],
      computeSimilarity alg sim rp up = .error nameErrorK := by
    intro hv
    have hfit : fitVectorizer (up.map Prod.snd ++ rp.map Prod.snd)
        = .ok (buildVocab (up.map Prod.snd ++ rp.map Prod.snd)) := by
      rw [fitVectorizer]
      simp [List.isEmpty_iff, hv]
    rw [computeSimilarity, hfit, hk, hne]
    rfl
  refine ⟨?_, hmain⟩
  by_cases hv : buildVocab (up.map Prod.snd ++ rp.map Prod.snd) = []
  · refine ⟨emptyVocabMsg, ?_⟩
    have hfit : fitVectorizer (up.map Prod.snd ++ rp.map Prod.snd)
        = .error emptyVocabMsg := by
      rw [fitVectorizer]
      simp [hv]
    rw [computeSimilarity, hfit]
  · exact ⟨nameErrorK, hmain hv⟩

/-- Witness: a concrete non-empty pair of profile sets on which the call
errors, with a non-degenerate vocabulary, hence with the NameError. -/
theorem computeSimilarity_always_raises_witness :
    ([((1 : Nat), "vegan")] ≠ ([] : List (Nat × String))) ∧
    ((∃ e, computeSimilarity (fun _ _ => []) [[1]] [(7, "vegan")] [(1, "vegan")]
        = .error e) ∧
     (buildVocab ([(1, "vegan")].map Prod.snd ++ [((7 : Nat), "vegan")].map Prod.snd) ≠ [] →
      computeSimilarity (fun _ _ => []) [[1]] [(7, "vegan")] [(1, "vegan")]
        = .error nameErrorK)) :=
  ⟨by decide,
    computeSimilarity_always_raises (fun _ _ => []) [[1]] [(7, "vegan")] [(1, "vegan")]
      (by decide)⟩

theorem writeDB_success_idempotent (db recs : List Rec) :
    writeDB (writeDB db recs .success) recs .success = writeDB db recs .success := by
  show deleteFor (touched recs) (deleteFor (touched recs) db ++ recs) ++ recs
      = deleteFor (touched recs) db ++ recs
  rw [deleteFor_append, deleteFor_idem, deleteFor_touched_self, List.append_nil]

/-- C7: the scoring-and-selection stage is a function of its input data
and of numpy's fixed selection algorithm (the parameter `alg`), so two
runs of the pipeline on unchanged input produce the same replace-set, and
committing that replace-set twice leaves the store exactly as committing
it once: the rerun is idempotent. -/
theorem pipeline_rerun_idempotent (alg : List ℚ → Nat → List Nat)
    (uids rids : List Nat) (sim : List (List ℚ)) (k : Nat) (db : List Rec)
    (recs recs' : List Rec)
    (h : recsForUsers alg uids rids sim k = .ok recs)
    (h' : recsForUsers alg uids rids sim k = .ok recs') :
    recs' = recs ∧
    writeDB (writeDB db recs .success) recs .success = writeDB db recs .success :=
  ⟨(Except.ok.inj (h.symm.trans h')).symm, writeDB_success_idempotent db recs⟩

/-- Witness: a user with six restaurants, one fixed selection outcome, a
store holding rows of another user; the replace-set is reproduced and its
second commit is a no-op. -/
theorem pipeline_rerun_idempotent_witness :
    (recsForUsers (fun _ _ => [0, 1, 2, 3, 4]) [1] [10, 11, 12, 13, 14, 15]
        [[6, 5, 4, 3, 2, 1]] 5
      = .ok [⟨1, 10, 6⟩, ⟨1, 11, 5⟩, ⟨1, 12, 4⟩, ⟨1, 13, 3⟩, ⟨1, 14, 2⟩]) ∧
    (([⟨1, 10, 6⟩, ⟨1, 11, 5⟩, ⟨1, 12, 4⟩, ⟨1, 13, 3⟩, ⟨1, 14, 2⟩] : List Rec)
      = [⟨1, 10, 6⟩, ⟨1, 11, 5⟩, ⟨1, 12, 4⟩, ⟨1, 13, 3⟩, ⟨1, 14, 2⟩] ∧
     writeDB (writeDB [⟨2, 50, 1⟩]
         [⟨1, 10, 6⟩, ⟨1, 11, 5⟩, ⟨1, 12, 4⟩, ⟨1, 13, 3⟩, ⟨1, 14, 2⟩] .success)
       [⟨1, 10, 6⟩, ⟨1, 11, 5⟩, ⟨1, 12, 4⟩, ⟨1, 13, 3⟩, ⟨1, 14, 2⟩] .success
      = writeDB [⟨2, 50, 1⟩]
          [⟨1, 10, 6⟩, ⟨1, 11, 5⟩, ⟨1, 12, 4⟩, ⟨1, 13, 3⟩, ⟨1, 14, 2⟩] .success) :=
  ⟨by rfl,
    pipeline_rerun_idempotent (fun _ _ => [0, 1, 2, 3, 4]) [1] [10, 11, 12, 13, 14, 15]
      [[6, 5, 4, 3, 2, 1]] 5 [⟨2, 50, 1⟩]
      [⟨1, 10, 6⟩, ⟨1, 11, 5⟩, ⟨1, 12, 4⟩, ⟨1, 13, 3⟩, ⟨1, 14, 2⟩]
      [⟨1, 10, 6⟩, ⟨1, 11, 5⟩, ⟨1, 12, 4⟩, ⟨1, 13, 3⟩, ⟨1, 14, 2⟩]
      (by rfl) (by rfl)⟩

/-- C4 counterexample: with the similarity row `[9,8,7,6,5,5,5]` and K = 5
there is a three-way tie at the selection boundary; both `[0,1,2,3,4]` and
`[0,1,2,3,5]` are outcomes numpy's unstable partial selection is allowed
to produce, and they yield different ranked triples — so the ranked list
is not a function of the scores and restaurant ids alone, and no
ascending-id tie-break is enforced. -/
theorem topK_not_function_of_scores_and_ids :
    validTopK tieScores 5 [0, 1, 2, 3, 4] ∧
    validTopK tieScores 5 [0, 1, 2, 3, 5] ∧
    triplesFor 1 tieRids tieScores [0, 1, 2, 3, 4]
      ≠ triplesFor 1 tieRids tieScores [0, 1, 2, 3, 5] := by decide

theorem scoreAt_inj {scores : List ℚ} (hs : scores.Nodup) {i j : Nat}
    (hi : i < scores.length) (hj : j < scores.length)
    (h : scoreAt scores i = scoreAt scores j) : i = j := by
  have e1 : scoreAt scores i = scores[i] := List.getD_eq_getElem scores 0 hi
  have e2 : scoreAt scores j = scores[j] := List.getD_eq_getElem scores 0 hj
  rw [e1, e2] at h
  exact (hs.getElem_inj_iff).1 h

theorem validTopK_mem {scores : List ℚ} (hs : scores.Nodup) {k : Nat}
    {s t : List Nat} (hvs : validTopK scores k s) (hvt : validTopK scores k t)
    {x : Nat} (hxs : x ∈ s) : x ∈ t := by
  by_contra hxt
  have hsub : ¬ (∀ y ∈ t, y ∈ s) := by
    intro hsub
    have hss : t.toFinset ⊆ s.toFinset := fun a ha =>
      List.mem_toFinset.2 (hsub a (List.mem_toFinset.1 ha))
    have hcard : s.toFinset.card ≤ t.toFinset.card := by
      rw [List.toFinset_card_of_nodup hvs.2.1, List.toFinset_card_of_nodup hvt.2.1,
        hvs.1, hvt.1]
    have heq : t.toFinset = s.toFinset := Finset.eq_of_subset_of_card_le hss hcard
    exact hxt (List.mem_toFinset.1 (heq ▸ List.mem_toFinset.2 hxs))
  push_neg at hsub
  obtain ⟨y, hyt, hys⟩ := hsub
  have hx_len : x < scores.length := hvs.2.2.1 x hxs
  have hy_len : y < scores.length := hvt.2.2.1 y hyt
  have h1 : scoreAt scores x ≤ scoreAt scores y := hvt.2.2.2.2 x hx_len hxt y hyt
  have h2 : scoreAt scores y ≤ scoreAt scores x := hvs.2.2.2.2 y hy_len hys x hxs
  have hxy : x = y := scoreAt_inj hs hx_len hy_len (le_antisymm h1 h2)
  exact hxt (hxy ▸ hyt)

theorem validTopK_sorted_strict {scores : List ℚ} (hs : scores.Nodup) {k : Nat}
    {s : List Nat} (hv : validTopK scores k s) :
    List.Pairwise (fun i j => scoreAt scores j < scoreAt scores i) s := by
  have hpw : List.Pairwise (fun i j => scoreAt scores j ≤ scoreAt scores i) s :=
    hv.2.2.2.1
  have hne : List.Pairwise (fun i j : Nat => i ≠ j) s := hv.2.1
  refine (hpw.and hne).imp_of_mem ?_
  intro a b ha hb hab
  exact lt_of_le_of_ne hab.1 fun hc =>
    hab.2 (scoreAt_inj hs (hv.2.2.1 b hb) (hv.2.2.1 a ha) hc).symm

theorem validTopK_unique {scores : List ℚ} (hs : scores.Nodup) {k : Nat}
    {s t : List Nat} (hvs : validTopK scores k s) (hvt : validTopK scores k t) :
    s = t := by
  have hperm : s.Perm t := (List.perm_ext_iff_of_nodup hvs.2.1 hvt.2.1).2
    (fun a => ⟨validTopK_mem hs hvs hvt, validTopK_mem hs hvt hvs⟩)
  haveI : IsAntisymm Nat (fun i j => scoreAt scores j < scoreAt scores i) :=
    ⟨fun _ _ h1 h2 => absurd h1 (not_lt.2 h2.le)⟩
  exact List.eq_of_perm_of_sorted hperm
    (validTopK_sorted_strict hs hvs) (validTopK_sorted_strict hs hvt)

/-- C4 (amended): for a user with strictly more than K restaurants, any
selection outcome numpy may produce has exactly K triples, weakly
descending by score, and every unselected restaurant scores no higher
than every selected one; when all scores are distinct the outcome is
uniquely determined, but with tied scores the counterexample above shows
the result depends on the unstable selection, with no ascending-id
tie-break. -/
theorem topK_amended (scores : List ℚ) (rids : List Nat) (uid k : Nat) (sel : List Nat)
    (_hk : k < scores.length) (hv : validTopK scores k sel) :
    (triplesFor uid rids scores sel).length = k ∧
    List.Pairwise (fun p q : Rec => q.score ≤ p.score) (triplesFor uid rids scores sel) ∧
    (∀ j < scores.length, j ∉ sel → ∀ i ∈ sel, scoreAt scores j ≤ scoreAt scores i) ∧
    (scores.Nodup → ∀ sel', validTopK scores k sel' → sel' = sel) := by
  refine ⟨?_, ?_, hv.2.2.2.2, fun hs sel' hv' => validTopK_unique hs hv' hv⟩
  · rw [triplesFor, List.length_map]; exact hv.1
  · rw [triplesFor, List.pairwise_map]
    exact hv.2.2.2.1

/-- Witness: six restaurants with distinct scores, K = 5; the forced
outcome `[0,1,2,3,4]` satisfies every conclusion, including uniqueness. -/
theorem topK_amended_witness :
    (5 < ([6, 5, 4, 3, 2, 1] : List ℚ).length) ∧
    validTopK [6, 5, 4, 3, 2, 1] 5 [0, 1, 2, 3, 4] ∧
    ((triplesFor 1 [10, 11, 12, 13, 14, 15] [6, 5, 4, 3, 2, 1] [0, 1, 2, 3, 4]).length = 5 ∧
     List.Pairwise (fun p q : Rec => q.score ≤ p.score)
       (triplesFor 1 [10, 11, 12, 13, 14, 15] [6, 5, 4, 3, 2, 1] [0, 1, 2, 3, 4]) ∧
     (∀ j < ([6, 5, 4, 3, 2, 1] : List ℚ).length, j ∉ [0, 1, 2, 3, 4] →
        ∀ i ∈ [0, 1, 2, 3, 4],
          scoreAt [6, 5, 4, 3, 2, 1] j ≤ scoreAt [6, 5, 4, 3, 2, 1] i) ∧
     (([6, 5, 4, 3, 2, 1] : List ℚ).Nodup →
        ∀ sel', validTopK [6, 5, 4, 3, 2, 1] 5 sel' → sel' = [0, 1, 2, 3, 4])) :=
  ⟨by decide, by decide,
    topK_amended [6, 5, 4, 3, 2, 1] [10, 11, 12, 13, 14, 15] 1 5 [0, 1, 2, 3, 4]
      (by decide) (by decide)⟩

theorem listDot_nonneg : ∀ (u v : List ℝ), (∀ x ∈ u, 0 ≤ x) → (∀ x ∈ v, 0 ≤ x) →
    0 ≤ listDot u v
  | [], _, _, _ => le_refl 0
  | _ :: _, [], _, _ => le_refl 0
  | a :: u, b :: v, hu, hv => by
    have ih := listDot_nonneg u v (fun x hx => hu x (List.mem_cons_of_mem _ hx))
      (fun x hx => hv x (List.mem_cons_of_mem _ hx))
    have ha := hu a (List.mem_cons_self _ _)
    have hb := hv b (List.mem_cons_self _ _)
    show 0 ≤ a * b + listDot u v
    exact add_nonneg (mul_nonneg ha hb) ih

theorem listDot_self_nonneg : ∀ u : List ℝ, 0 ≤ listDot u u
  | [] => le_refl 0
  | a :: u => by
    show 0 ≤ a * a + listDot u u
    exact add_nonneg (mul_self_nonneg a) (listDot_self_nonneg u)

theorem listDot_sq_le : ∀ u v : List ℝ, (listDot u v) ^ 2 ≤ listDot u u * listDot v v
  | [], v => by
    show ((0:ℝ)) ^ 2 ≤ 0 * listDot v v
    simp
  | a :: u, [] => by
    show ((0:ℝ)) ^ 2 ≤ (a * a + listDot u u) * 0
    simp
  | a :: u, b :: v => by
    have ih := listDot_sq_le u v
    have hp := listDot_self_nonneg u
    have hq := listDot_self_nonneg v
    show (a * b + listDot u v) ^ 2 ≤ (a * a + listDot u u) * (b * b + listDot v v)
    rcases eq_or_lt_of_le hp with hp0 | hp0
    · have hs2 : (listDot u v) ^ 2 ≤ 0 := by
        calc (listDot u v) ^ 2 ≤ listDot u u * listDot v v := ih
        _ = 0 := by rw [← hp0, zero_mul]
      have hs : listDot u v = 0 :=
        (pow_eq_zero_iff two_ne_zero).1 (le_antisymm hs2 (sq_nonneg _))
      rw [hs, ← hp0]
      nlinarith [mul_nonneg (mul_self_nonneg a) hq]
    · nlinarith [sq_nonneg (a * listDot u v - b * listDot u u),
        mul_nonneg (sq_nonneg a) (sub_nonneg.2 ih),
        mul_nonneg hp0.le (sub_nonneg.2 ih)]

theorem cosineSim_nonneg (u v : List ℝ) (hu : ∀ x ∈ u, 0 ≤ x) (hv : ∀ x ∈ v, 0 ≤ x) :
    0 ≤ cosineSim u v :=
  div_nonneg (listDot_nonneg u v hu hv)
    (mul_nonneg (Real.sqrt_nonneg _) (Real.sqrt_nonneg _))

theorem cosineSim_le_one (u v : List ℝ) (hu : ∀ x ∈ u, 0 ≤ x) (hv : ∀ x ∈ v, 0 ≤ x) :
    cosineSim u v ≤ 1 := by
  rw [cosineSim]
  refine div_le_one_of_le₀ ?_ (mul_nonneg (Real.sqrt_nonneg _) (Real.sqrt_nonneg _))
  have h1 : listDot u v = Real.sqrt ((listDot u v) ^ 2) :=
    (Real.sqrt_sq (listDot_nonneg u v hu hv)).symm
  rw [h1, ← Real.sqrt_mul (listDot_self_nonneg u)]
  exact Real.sqrt_le_sqrt (listDot_sq_le u v)

theorem idfWeight_nonneg {n df : Nat} (h : df ≤ n) : 0 ≤ idfWeight n df := by
  rw [idfWeight]
  have h1 : (1 : ℝ) ≤ (1 + (n : ℝ)) / (1 + (df : ℝ)) := by
    rw [le_div_iff₀ (by positivity), one_mul]
    have : (df : ℝ) ≤ (n : ℝ) := Nat.cast_le.2 h
    linarith
  have h2 : 0 ≤ Real.log ((1 + (n : ℝ)) / (1 + (df : ℝ))) := Real.log_nonneg h1
  linarith

theorem docFreq_le_length (docs : List String) (t : String) :
    docFreq docs t ≤ docs.length := List.countP_le_length _

theorem tfidfVec_nonneg (docs : List String) (doc : String) :
    ∀ x ∈ tfidfVec docs doc, 0 ≤ x := by
  intro x hx
  rw [tfidfVec] at hx
  obtain ⟨t, _, rfl⟩ := List.mem_map.1 hx
  exact mul_nonneg (Nat.cast_nonneg _) (idfWeight_nonneg (docFreq_le_length docs t))

/-- C8: every entry of the cosine-similarity matrix of TF-IDF vectors over
a common fitted vocabulary lies in the closed interval [0, 1]: term
frequencies and smoothed idf weights are non-negative, so the dot product
is non-negative, and by the Cauchy-Schwarz inequality the normalized
product is at most 1; an out-of-vocabulary text has norm 0 and similarity
0 with everything. -/
theorem similarity_in_unit_interval (docs : List String) (du dr : String) :
    0 ≤ cosineSim (tfidfVec docs du) (tfidfVec docs dr) ∧
    cosineSim (tfidfVec docs du) (tfidfVec docs dr) ≤ 1 :=
  ⟨cosineSim_nonneg _ _ (tfidfVec_nonneg docs du) (tfidfVec_nonneg docs dr),
   cosineSim_le_one _ _ (tfidfVec_nonneg docs du) (tfidfVec_nonneg docs dr)⟩

end RecSys
